import Mathlib

/-!
# Verification of the Execution Bridge worker

A shallow embedding of `ultrahdr-browser/src/worker.ts` (the "Execution
Bridge" of the spec) together with the published message types of
`ultrahdr-browser/src/types/worker.ts`, and theorems about the status-event
protocol, virtual-filesystem lifecycle, argument-list construction, error
surfacing, output-buffer ownership, and the worker's (lack of) request
serialization.

The worker is a JavaScript Web Worker.  Its observable behaviour is:
messages posted via `postMessage` (modelled as a trace of `WorkerEvent`s),
the module-level virtual filesystem `rootDir.contents` (a JS `Map` from
path to `File`/`Directory`), and calls into the external world (fetching
the wasm binary, instantiating it, and running its entry point), which we
model as an oracle `Env`.
-/

namespace UltraHdrWorker

/-- Bytes of a JS `ArrayBuffer` / `Uint8Array`. -/
abbrev ByteBuf := List Nat

/-- An entry of `rootDir.contents`: a `File` holding data, or a `Directory`
(`readFile` checks `entry instanceof File`, worker.ts line 23). -/
inductive FsEntry where
  | file (data : ByteBuf)
  | dir
deriving DecidableEq

/-- `Map.get`: first (unique) binding of the key in an insertion-ordered
association list. -/
def mapGet {α : Type} : List (String × α) → String → Option α
  | [], _ => none
  | (q, v) :: rest, p => if q = p then some v else mapGet rest p

/-- `Map.set`: overwrite the existing binding in place, or append a new one. -/
def mapSet {α : Type} : List (String × α) → String → α → List (String × α)
  | [], p, v => [(p, v)]
  | (q, w) :: rest, p, v =>
      if q = p then (p, v) :: rest else (q, w) :: mapSet rest p v

/-- `rootDir.contents`: the virtual filesystem, an insertion-ordered map
from path to entry (worker.ts line 11). -/
abbrev FS := List (String × FsEntry)

/-- `resetFs()` (worker.ts lines 13-15): `rootDir.contents = new Map()`. -/
def resetFs : FS := []

/-- `writeFile(path, data)` (worker.ts lines 17-19). -/
def writeFile (fs : FS) (path : String) (data : ByteBuf) : FS :=
  mapSet fs path (FsEntry.file data)

/-- `readFile(path)` (worker.ts lines 21-25): `null` unless the entry
exists and is a `File`. -/
def readFile (fs : FS) (path : String) : Option ByteBuf :=
  match mapGet fs path with
  | some (FsEntry.file d) => some d
  | _ => none

/-- A `WorkerStatus` message (types/worker.ts lines 1-6), i.e. one event
emitted through `postMessage`. -/
inductive WorkerEvent where
  | status (payload : String)
  | stdout (payload : String)
  | stderr (payload : String)
  | done (fileName : String) (buffer : ByteBuf)
  | error (payload : String)
deriving DecidableEq

/-- A thrown JS error value: its `.message` property and its `String(err)`
rendering (both used by the `onmessage` catch handlers, worker.ts
lines 144 and 148). -/
structure JsError where
  message : String
  asString : String
deriving DecidableEq

/-- `new Error(msg)`: `.message` is `msg`, `String(err)` is
`"Error: " ++ msg`. -/
def mkError (msg : String) : JsError :=
  { message := msg, asString := "Error: " ++ msg }

/-- `err.message || String(err)` (worker.ts lines 144, 148): the message,
unless it is the empty string (falsy), in which case the string form. -/
def errPayload (e : JsError) : String :=
  if e.message = "" then e.asString else e.message

/-- The `TypeError` thrown by evaluating `req.files.length` when the
message carries no `files` property (so `req.files` is `undefined`);
message text as produced by V8. -/
def typeErrorFilesLength : JsError :=
  { message := "Cannot read properties of undefined (reading 'length')",
    asString := "TypeError: Cannot read properties of undefined (reading 'length')" }

/-- Bake options (types/worker.ts lines 12-19).  JS numbers are modelled
as integers (the worker only converts them to strings). -/
structure BakeOpts where
  outName : String
  baseQ : Int
  gainmapQ : Int
  scale : Int
  multichannel : Bool
  targetPeak : Option Int
deriving DecidableEq

/-- Motion options (types/worker.ts lines 26-29). -/
structure MotionOpts where
  outName : String
  timestampUs : Option Int
deriving DecidableEq

/-- One entry of a `files` array as the worker consumes it: the worker
reads only `files[i].buffer` (worker.ts lines 42, 74); a caller-supplied
file name would be the `name` property, which the worker never reads. -/
structure InFile where
  name : String
  buffer : ByteBuf
deriving DecidableEq

/-- A bake message as the worker sees it at runtime: the fields it
actually dereferences.  `files := none` models a message without a
`files` property (such as the published `BakeRequest`). -/
structure BakeMsg where
  files : Option (List InFile)
  opts : BakeOpts
deriving DecidableEq

/-- A motion message as the worker sees it at runtime. -/
structure MotionMsg where
  files : Option (List InFile)
  opts : MotionOpts
deriving DecidableEq

/-- An incoming message, dispatched on its `type` field (worker.ts
lines 140-151); `other` is any message whose `type` is neither `"bake"`
nor `"motion"` (the handler ignores it). -/
inductive WorkerMsg where
  | bake (m : BakeMsg)
  | motion (m : MotionMsg)
  | other
deriving DecidableEq

/-- The published `BakeRequest` message type (types/worker.ts lines 8-20):
`hdr`/`sdr` buffers plus `opts`, and no `files` field. -/
structure BakeRequest where
  hdr : ByteBuf
  sdr : ByteBuf
  opts : BakeOpts
deriving DecidableEq

/-- The published `MotionRequest` message type (types/worker.ts
lines 22-30): `photo`/`video` buffers plus `opts`, and no `files` field. -/
structure MotionRequest where
  photo : ByteBuf
  video : ByteBuf
  opts : MotionOpts
deriving DecidableEq

/-- The runtime view of a published `BakeRequest`: it has no `files`
property, so `req.files` evaluates to `undefined`. -/
def BakeRequest.toMsg (r : BakeRequest) : BakeMsg :=
  { files := none, opts := r.opts }

/-- The runtime view of a published `MotionRequest`. -/
def MotionRequest.toMsg (r : MotionRequest) : MotionMsg :=
  { files := none, opts := r.opts }

/-- `SAFE_BAKE_NAMES` (worker.ts line 31). -/
def SAFE_BAKE_NAMES : List String := ["input1.jpg", "input2.jpg"]

/-- `SAFE_MOTION_NAMES` (worker.ts line 32). -/
def SAFE_MOTION_NAMES : List String := ["motion1.bin", "motion2.bin"]

/-- The argument list built by `runBake` (worker.ts lines 45-61).  The
final line pushes `SAFE_BAKE_NAMES[0]` and `SAFE_BAKE_NAMES[1]`, i.e.
appends `SAFE_BAKE_NAMES`. -/
def bakeArgs (opts : BakeOpts) : List String :=
  let args := ["ultrahdr-bake.wasm", "--out", opts.outName,
    "--base-q", toString opts.baseQ,
    "--gm-q", toString opts.gainmapQ,
    "--scale", toString opts.scale]
  let args := if opts.multichannel then args ++ ["--multichannel"] else args
  let args := match opts.targetPeak with
    | some v => args ++ ["--target-peak", toString v]
    | none => args
  args ++ SAFE_BAKE_NAMES

/-- The argument list built by `runMotion` (worker.ts lines 77-81). -/
def motionArgs (opts : MotionOpts) : List String :=
  let args := ["ultrahdr-bake.wasm", "motion", "--out", opts.outName]
  let args := match opts.timestampUs with
    | some v => args ++ ["--timestamp-us", toString v]
    | none => args
  args ++ SAFE_MOTION_NAMES

/-- The input-staging loop (worker.ts lines 41-43 and 73-75): write each
input buffer (`new Uint8Array(files[i].buffer)`, a fresh copy with equal
bytes) under the corresponding fixed safe name. -/
def writeInputs : FS → List String → List InFile → FS
  | fs, _, [] => fs
  | fs, [], _ :: _ => fs
  | fs, n :: ns, f :: rest => writeInputs (writeFile fs n f.buffer) ns rest

/-- The virtual filesystem immediately after input staging in `runBake`
(worker.ts lines 36-43): `resetFs()` followed by writing
`files.slice(0, 2)` under `SAFE_BAKE_NAMES`. -/
def stagedBakeFs (files : List InFile) : FS :=
  writeInputs resetFs SAFE_BAKE_NAMES (files.take 2)

/-- The virtual filesystem immediately after input staging in `runMotion`
(worker.ts lines 68-75). -/
def stagedMotionFs (files : List InFile) : FS :=
  writeInputs resetFs SAFE_MOTION_NAMES (files.take 2)

/-- The worker's external collaborators: fetching the wasm binary
(`fetch(wasmUrl).then(r => r.arrayBuffer())`, worker.ts line 107),
instantiating it (`WebAssembly.instantiate`, line 110), and running its
entry point (`wasi.start`, line 119).  `start` receives the argv and the
preopened directory contents and yields the stdout/stderr lines emitted
through the line-buffered `ConsoleStdout` callbacks (`(isStderr, line)`,
in emission order), the directory contents after the run, and `some e`
when execution threw (a trap, `longjmp called`, or a shim exception). -/
structure Env where
  fetchWasm : Except JsError ByteBuf
  instantiate : ByteBuf → Except JsError Unit
  start : List String → FS → List (Bool × String) × FS × Option JsError

/-- Map a raw stdout/stderr line to the event emitted for it
(worker.ts lines 89-94). -/
def lineEvent (l : Bool × String) : WorkerEvent :=
  if l.1 then WorkerEvent.stderr l.2 else WorkerEvent.stdout l.2

/-- Result of one invocation of `runBake`/`runMotion`/`runCli`: the events
emitted so far, the final filesystem, `some e` when the async function
rejected with `e`, and whether control reached `WebAssembly.instantiate`. -/
structure RunResult where
  events : List WorkerEvent
  fs : FS
  outcome : Option JsError
  instantiated : Bool
deriving DecidableEq

/-- `runCli(args, outName)` (worker.ts lines 86-138).  The fds and the
`WASI` object are constructed first (lines 87-97, no observable events);
the preopened directory is the current `rootDir.contents`, i.e. `fs`. -/
def runCli (env : Env) (fs : FS) (args : List String) (outName : String) :
    RunResult :=
  let ev := [WorkerEvent.status "Fetching wasm…"]
  match env.fetchWasm with
  | Except.error e => ⟨ev, fs, some e, false⟩
  | Except.ok wasmBytes =>
    let ev := ev ++ [WorkerEvent.status "Running ultrahdr-bake…"]
    match env.instantiate wasmBytes with
    | Except.error e => ⟨ev, fs, some e, true⟩
    | Except.ok _ =>
      match env.start args fs with
      | (lines, fs2, trap) =>
        let ev := ev ++ lines.map lineEvent
        match trap with
        | some e => ⟨ev, fs2, some e, true⟩
        | none =>
          match readFile fs2 outName with
          | none => ⟨ev, fs2, some (mkError "Output file missing"), true⟩
          | some outBytes =>
            -- `outCopy` (lines 129-130) is a fresh Uint8Array with the
            -- same bytes; its byte content is `outBytes`.
            ⟨ev ++ [WorkerEvent.done outName outBytes], fs2, none, true⟩

/-- `runBake(req)` (worker.ts lines 34-64).  The incoming `fs` is the
module-level filesystem left by previous invocations; it is discarded by
`resetFs()` before the `files` check and the writes. -/
def runBake (env : Env) (_fs : FS) (req : BakeMsg) : RunResult :=
  let ev := [WorkerEvent.status "Preparing WASI FS…"]
  match req.files with
  | none => ⟨ev, resetFs, some typeErrorFilesLength, false⟩
  | some fl =>
    if fl.length ≠ 2 then
      ⟨ev, resetFs, some (mkError "Need exactly two JPEG inputs"), false⟩
    else
      let fs' := stagedBakeFs fl
      let r := runCli env fs' (bakeArgs req.opts) req.opts.outName
      ⟨ev ++ r.events, r.fs, r.outcome, r.instantiated⟩

/-- `runMotion(req)` (worker.ts lines 66-84). -/
def runMotion (env : Env) (_fs : FS) (req : MotionMsg) : RunResult :=
  let ev := [WorkerEvent.status "Preparing WASI FS…"]
  match req.files with
  | none => ⟨ev, resetFs, some typeErrorFilesLength, false⟩
  | some fl =>
    if fl.length ≠ 2 then
      ⟨ev, resetFs, some (mkError "Need exactly two inputs (photo + video)"), false⟩
    else
      let fs' := stagedMotionFs fl
      let r := runCli env fs' (motionArgs req.opts) req.opts.outName
      ⟨ev ++ r.events, r.fs, r.outcome, r.instantiated⟩

/-- The `self.onmessage` handler (worker.ts lines 140-151): dispatch on
the message type and surface a rejection as an `error` event carrying
`err.message || String(err)`.  Returns the full event trace of the
invocation and the final filesystem. -/
def handleMessage (env : Env) (fs : FS) (msg : WorkerMsg) :
    List WorkerEvent × FS :=
  match msg with
  | WorkerMsg.bake m =>
    let r := runBake env fs m
    match r.outcome with
    | some e => (r.events ++ [WorkerEvent.error (errPayload e)], r.fs)
    | none => (r.events, r.fs)
  | WorkerMsg.motion m =>
    let r := runMotion env fs m
    match r.outcome with
    | some e => (r.events ++ [WorkerEvent.error (errPayload e)], r.fs)
    | none => (r.events, r.fs)
  | WorkerMsg.other => ([], fs)

/-! ## Observations on event traces -/

/-- Is the event a terminal event (`done` or `error`)? -/
def isTerminalEvent : WorkerEvent → Bool
  | WorkerEvent.done _ _ => true
  | WorkerEvent.error _ => true
  | _ => false

/-- Is the event a `status` event or a terminal event?  (The claim about
the fixed sequence is about these; `stdout`/`stderr` lines are excluded.) -/
def isStatusOrTerminal : WorkerEvent → Bool
  | WorkerEvent.status _ => true
  | WorkerEvent.done _ _ => true
  | WorkerEvent.error _ => true
  | _ => false

/-- The subsequence of `status` and terminal events of a trace. -/
def statusProj (evs : List WorkerEvent) : List WorkerEvent :=
  evs.filter isStatusOrTerminal

/-- Is the event an `error` event? -/
def isErrorEvent : WorkerEvent → Bool
  | WorkerEvent.error _ => true
  | _ => false

/-- Is the event a `done` event? -/
def isDoneEvent : WorkerEvent → Bool
  | WorkerEvent.done _ _ => true
  | _ => false

/-- The three status payloads, in the order the worker emits them. -/
def statusSeq : List WorkerEvent :=
  [WorkerEvent.status "Preparing WASI FS…",
   WorkerEvent.status "Fetching wasm…",
   WorkerEvent.status "Running ultrahdr-bake…"]

/-- The status/terminal projection of the trace is a prefix of the fixed
status sequence followed by exactly one terminal event, and a `done`
terminal occurs only after all three statuses. -/
def ProgressShape (evs : List WorkerEvent) : Prop :=
  ∃ k t, k ≤ 3 ∧ isTerminalEvent t = true ∧
    statusProj evs = statusSeq.take k ++ [t] ∧
    (∀ n b, t = WorkerEvent.done n b → k = 3)

/-- A tag sequence is non-interleaved when a tag never reappears after a
different tag has intervened (events of different jobs form contiguous
blocks). -/
def tagsNonInterleaved (l : List Nat) : Bool :=
  (List.range l.length).all fun i =>
    (List.range l.length).all fun j =>
      (List.range l.length).all fun k =>
        !(i < j && j < k && l.getD i 0 = l.getD k 0 && l.getD j 0 ≠ l.getD i 0)

/-! ## Concrete environments (used by witnesses and counterexamples) -/

/-- An environment whose sandboxed process runs to completion without
emitting lines and without touching the filesystem — in particular it
creates no output file. -/
def envNoOutput : Env :=
  { fetchWasm := Except.ok [0]
    instantiate := fun _ => Except.ok ()
    start := fun _ fs => ([], fs, none) }

/-- An environment whose sandboxed process writes `bytes` under `out` and
exits normally. -/
def envWrite (out : String) (bytes : ByteBuf) : Env :=
  { fetchWasm := Except.ok [0]
    instantiate := fun _ => Except.ok ()
    start := fun _ fs => ([], writeFile fs out bytes, none) }

/-- An environment modelling the scenario of a bake over two non-JPEG
inputs: the process reports the malformed image on stderr and throws,
leaving the filesystem as it found it. -/
def envMalformed : Env :=
  { fetchWasm := Except.ok [0]
    instantiate := fun _ => Except.ok ()
    start := fun _ fs =>
      ([(true, "Error: MalformedImage")], fs, some (mkError "exit with exit code 1")) }

/-- Fixed bake options used in witnesses. -/
def opts0 : BakeOpts :=
  { outName := "out.jpg", baseQ := 95, gainmapQ := 95, scale := 1,
    multichannel := false, targetPeak := none }

/-- Fixed motion options used in witnesses. -/
def mopts0 : MotionOpts := { outName := "motion_out.jpg", timestampUs := none }

/-- Bake options with both optional options supplied (used in witnesses). -/
def opts1 : BakeOpts :=
  { outName := "out.jpg", baseQ := 95, gainmapQ := 95, scale := 4,
    multichannel := true, targetPeak := some 1000 }

/-- Motion options with the optional timestamp supplied (used in
witnesses). -/
def mopts1 : MotionOpts := { outName := "motionphoto.jpg", timestampUs := some 0 }

/-- Side condition for reading the bake argument list back: no
option-derived string equals one of the two optional flag tokens (any
sane option set satisfies this). -/
def noFlagCollision (opts : BakeOpts) : Bool :=
  opts.outName != "--multichannel" && opts.outName != "--target-peak" &&
  toString opts.baseQ != "--multichannel" &&
  toString opts.baseQ != "--target-peak" &&
  toString opts.gainmapQ != "--multichannel" &&
  toString opts.gainmapQ != "--target-peak" &&
  toString opts.scale != "--multichannel" &&
  toString opts.scale != "--target-peak" &&
  (opts.targetPeak.all fun v => toString v != "--multichannel")

/-! ## The worker event loop

`self.onmessage` does not await `runBake`/`runMotion` (worker.ts
lines 143, 147) and keeps no busy flag: a message delivered while a
previous job is suspended at an `await` starts a new job immediately.  We
model the worker's event loop as a small-step machine.  A job runs
synchronously from one `await` to the next; the awaits of a bake/motion
invocation are the fetch of the wasm binary (line 107) and
`WebAssembly.instantiate` (line 110).  Between two synchronous segments
the event loop may deliver the next queued message.

`rootDir.contents` is a mutable JS `Map` object; `resetFs()` replaces it
with a fresh `Map` while the `PreopenDirectory` built at the start of
`runCli` (line 95) keeps a reference to the map that was current at that
point.  We model map identity with a heap of maps addressed by index. -/

namespace Loop

/-- A job suspended at one of the two `await` points of an invocation.
`ref` is the heap address of the map object captured by its
`PreopenDirectory`. -/
inductive Phase where
  | awaitFetch (args : List String) (outName : String) (ref : Nat)
  | awaitInst (args : List String) (outName : String) (ref : Nat)
      (wasmBytes : ByteBuf)
deriving DecidableEq

/-- Worker state: every `Map` object ever created (index = identity), the
address `rootDir.contents` currently points to, the jobs started so far
(`none` once settled), the messages posted but not yet delivered, and the
emitted events tagged with the index of the job that emitted them (the
tag is instrumentation for stating interleaving, not part of the
message). -/
structure WState where
  maps : List FS
  rootRef : Nat
  jobs : List (Option Phase)
  queue : List WorkerMsg
  trace : List (Nat × WorkerEvent)
deriving DecidableEq

/-- The map object at address `r`. -/
def getMap (s : WState) (r : Nat) : FS := s.maps.getD r []

/-- Initial state: `new Directory(new Map())` (worker.ts line 11) plus a
queue of posted messages. -/
def init (queue : List WorkerMsg) : WState :=
  { maps := [[]], rootRef := 0, jobs := [], queue := queue, trace := [] }

/-- A scheduler action: deliver the next queued message, or resume job
`j` at its pending `await` (its awaited promise settles). -/
inductive Action where
  | deliver
  | resume (j : Nat)
deriving DecidableEq

/-- The synchronous segment run when a bake/motion message is delivered
(worker.ts lines 34-55 resp. 66-81 and 86-99, up to the fetch `await`):
emit the preparing status, `resetFs()` (a fresh map), check `files`,
stage the inputs, build the argument list and fds, emit the fetching
status.  On a synchronous throw the rejection handler (line 143-149)
emits the error event; the handler runs as a microtask, before any
further message delivery.  `name` is the new job's index. -/
def startJob (s : WState) (name : Nat) (files : Option (List InFile))
    (twoErr : String) (safeNames : List String) (args : List String)
    (outName : String) : WState :=
  let prep := (name, WorkerEvent.status "Preparing WASI FS…")
  -- resetFs(): allocate a fresh empty map and repoint rootDir.contents.
  let ref := s.maps.length
  let maps := s.maps ++ [[]]
  match files with
  | none =>
    { s with
      maps := maps
      rootRef := ref
      jobs := s.jobs ++ [none]
      trace := s.trace ++ [prep,
        (name, WorkerEvent.error (errPayload typeErrorFilesLength))] }
  | some fl =>
    if fl.length ≠ 2 then
      { s with
        maps := maps
        rootRef := ref
        jobs := s.jobs ++ [none]
        trace := s.trace ++ [prep,
          (name, WorkerEvent.error (errPayload (mkError twoErr)))] }
    else
      let staged := writeInputs resetFs safeNames (fl.take 2)
      { s with
        maps := maps.set ref staged
        rootRef := ref
        jobs := s.jobs ++ [some (Phase.awaitFetch args outName ref)]
        trace := s.trace ++ [prep, (name, WorkerEvent.status "Fetching wasm…")] }

/-- Deliver the message at the head of the queue (the `onmessage`
handler, worker.ts lines 140-151). -/
def deliver (s : WState) : WState :=
  match s.queue with
  | [] => s
  | msg :: rest =>
    let s := { s with queue := rest }
    match msg with
    | WorkerMsg.bake m =>
      startJob s s.jobs.length m.files "Need exactly two JPEG inputs"
        SAFE_BAKE_NAMES (bakeArgs m.opts) m.opts.outName
    | WorkerMsg.motion m =>
      startJob s s.jobs.length m.files "Need exactly two inputs (photo + video)"
        SAFE_MOTION_NAMES (motionArgs m.opts) m.opts.outName
    | WorkerMsg.other => { s with jobs := s.jobs ++ [none] }

/-- Resume job `j` whose pending `await` has settled: run its next
synchronous segment.  After `instantiate` succeeds, `wasi.start` runs on
the map captured by the job's `PreopenDirectory`, while `readFile`
(line 125) consults the map `rootDir.contents` points to at that moment —
which a later job's `resetFs()` may have replaced. -/
def resume (env : Env) (s : WState) (j : Nat) : WState :=
  match s.jobs.getD j none with
  | none => s
  | some (Phase.awaitFetch args outName ref) =>
    match env.fetchWasm with
    | Except.error e =>
      { s with
        jobs := s.jobs.set j none
        trace := s.trace ++ [(j, WorkerEvent.error (errPayload e))] }
    | Except.ok wb =>
      { s with
        jobs := s.jobs.set j (some (Phase.awaitInst args outName ref wb))
        trace := s.trace ++ [(j, WorkerEvent.status "Running ultrahdr-bake…")] }
  | some (Phase.awaitInst args outName ref wb) =>
    match env.instantiate wb with
    | Except.error e =>
      { s with
        jobs := s.jobs.set j none
        trace := s.trace ++ [(j, WorkerEvent.error (errPayload e))] }
    | Except.ok _ =>
      match env.start args (getMap s ref) with
      | (lines, fsAfter, trap) =>
        let maps := s.maps.set ref fsAfter
        let lineEvs := lines.map fun l => (j, lineEvent l)
        match trap with
        | some e =>
          { s with
            maps := maps
            jobs := s.jobs.set j none
            trace := s.trace ++ lineEvs ++ [(j, WorkerEvent.error (errPayload e))] }
        | none =>
          -- readFile consults the *current* rootDir.contents.
          let current := maps.getD s.rootRef []
          match readFile current outName with
          | none =>
            { s with
              maps := maps
              jobs := s.jobs.set j none
              trace := s.trace ++ lineEvs ++
                [(j, WorkerEvent.error (errPayload (mkError "Output file missing")))] }
          | some outBytes =>
            { s with
              maps := maps
              jobs := s.jobs.set j none
              trace := s.trace ++ lineEvs ++
                [(j, WorkerEvent.done outName outBytes)] }

/-- One scheduler step. -/
def step (env : Env) (s : WState) : Action → WState
  | Action.deliver => deliver s
  | Action.resume j => resume env s j

/-- Run a schedule. -/
def run (env : Env) (s : WState) : List Action → WState
  | [] => s
  | a :: rest => run env (step env s a) rest

end Loop

/-! ## Buffer identity

The `done` payload is `outCopy.buffer` where `outCopy` is a fresh
`Uint8Array` filled from the output file's data (worker.ts lines
129-135).  To state that this copy is insulated from later filesystem
activity we refine the model with explicit buffer identity: a heap of
data cells addressed by index; the filesystem maps a path to the address
of its `File`'s data array.  `writeFile` allocates a fresh cell
(`new Uint8Array(...)` + `new File(...)`, lines 17-18, 42, 74); the
sandboxed process may mutate the cells of the files preopened for it and
allocate new ones. -/

namespace Alias

/-- Heap of `Uint8Array` data cells; an address models object identity. -/
abbrev Heap := List ByteBuf

/-- Filesystem mapping a path to the heap address of its data. -/
abbrev AFS := List (String × Nat)

/-- Allocate a fresh cell. -/
def alloc (h : Heap) (b : ByteBuf) : Heap × Nat := (h ++ [b], h.length)

/-- Contents of the cell at address `a`. -/
def hGet (h : Heap) (a : Nat) : ByteBuf := h.getD a []

/-- `writeFile` with identity: a fresh cell holding a copy of the bytes. -/
def writeFileA (h : Heap) (fs : AFS) (p : String) (b : ByteBuf) : Heap × AFS :=
  let ha := alloc h b
  (ha.1, mapSet fs p ha.2)

/-- Input staging with identity: one `writeFile` per input under the
corresponding safe name, starting from the empty map left by `resetFs()`
(`fs` is the accumulator). -/
def stageA (h : Heap) (fs : AFS) : List String → List ByteBuf → Heap × AFS
  | _, [] => (h, fs)
  | [], _ :: _ => (h, fs)
  | n :: ns, b :: rest =>
    let ha := alloc h b
    stageA ha.1 (mapSet fs n ha.2) ns rest

/-- External world for the identity-refined model.  `start` receives the
argv, the preopened directory and the heap, and returns the directory
contents and heap after the run plus `some e` when execution threw. -/
structure AEnv where
  fetchWasm : Except JsError ByteBuf
  instantiate : ByteBuf → Except JsError Unit
  start : List String → AFS → Heap → AFS × Heap × Option JsError

/-- `start` can reach only the `File` objects preopened in its directory:
the heap only grows, cells not reachable from the directory are
untouched, and every address installed in the directory is either a
preopened one or freshly allocated. -/
def Frames (env : AEnv) : Prop :=
  ∀ args fs h,
    h.length ≤ (env.start args fs h).2.1.length ∧
    (∀ a, a < h.length → a ∉ fs.map Prod.snd →
      hGet (env.start args fs h).2.1 a = hGet h a) ∧
    (∀ p a, mapGet (env.start args fs h).1 p = some a →
      a ∈ fs.map Prod.snd ∨ (h.length ≤ a ∧ a < (env.start args fs h).2.1.length))

/-- `runCli` in the identity-refined model (worker.ts lines 86-138),
returning the heap and directory after the run and, on success, the heap
address of the fresh copy carried by the `done` event (`outCopy`,
lines 129-135). -/
def runCliA (env : AEnv) (h : Heap) (fs : AFS) (args : List String)
    (outName : String) : Heap × AFS × Except JsError Nat :=
  match env.fetchWasm with
  | Except.error e => (h, fs, Except.error e)
  | Except.ok wb =>
    match env.instantiate wb with
    | Except.error e => (h, fs, Except.error e)
    | Except.ok _ =>
      match env.start args fs h with
      | (fs2, h2, trap) =>
        match trap with
        | some e => (h2, fs2, Except.error e)
        | none =>
          match mapGet fs2 outName with
          | none => (h2, fs2, Except.error (mkError "Output file missing"))
          | some a =>
            let hc := alloc h2 (hGet h2 a)
            (hc.1, fs2, Except.ok hc.2)

/-- `runBake` in the identity-refined model (worker.ts lines 34-64); the
`files` entries are the input byte buffers. -/
def runBakeA (env : AEnv) (h : Heap) (files : List ByteBuf) (opts : BakeOpts) :
    Heap × AFS × Except JsError Nat :=
  if files.length ≠ 2 then
    (h, [], Except.error (mkError "Need exactly two JPEG inputs"))
  else
    let st := stageA h [] SAFE_BAKE_NAMES (files.take 2)
    runCliA env st.1 st.2 (bakeArgs opts) opts.outName

/-- A concrete world for the identity-refined model: the process writes
`outBytes` under `out` (as a fresh file) and exits normally. -/
def aenvWrite (out : String) (outBytes : ByteBuf) : AEnv :=
  { fetchWasm := Except.ok [0]
    instantiate := fun _ => Except.ok ()
    start := fun _ fs h => (mapSet fs out h.length, h ++ [outBytes], none) }

end Alias

/-! ## Helper lemmas -/

theorem mapGet_mapSet {α : Type} (fs : List (String × α)) (p q : String) (v : α) :
    mapGet (mapSet fs p v) q = if p = q then some v else mapGet fs q := by
  induction fs with
  | nil => simp [mapGet, mapSet]
  | cons hd tl ih =>
    obtain ⟨r, w⟩ := hd
    by_cases hrp : r = p
    · subst hrp
      by_cases hrq : r = q <;> simp [mapGet, mapSet, hrq]
    · by_cases hrq : r = q
      · subst hrq
        have hpr : p ≠ r := fun h => hrp h.symm
        simp [mapGet, mapSet, hrp, hpr, ih]
      · simp [mapGet, mapSet, hrp, hrq, ih]

theorem statusProj_lineEvents (lines : List (Bool × String)) :
    statusProj (lines.map lineEvent) = [] := by
  induction lines with
  | nil => rfl
  | cons l rest ih =>
    obtain ⟨b, t⟩ := l
    cases b <;> simpa [statusProj, lineEvent, isStatusOrTerminal] using ih

theorem filter_error_lineEvents (lines : List (Bool × String)) :
    (lines.map lineEvent).filter isErrorEvent = [] := by
  induction lines with
  | nil => rfl
  | cons l rest ih =>
    obtain ⟨b, t⟩ := l
    cases b <;> simpa [lineEvent, isErrorEvent] using ih

theorem done_not_mem_lineEvents (lines : List (Bool × String)) (n : String)
    (b : ByteBuf) : WorkerEvent.done n b ∉ lines.map lineEvent := by
  intro h
  obtain ⟨l, -, hl⟩ := List.mem_map.mp h
  by_cases hb : l.1 <;> simp [lineEvent, hb] at hl

/-- The staged bake filesystem on a two-element `files` array, literally. -/
theorem stagedBakeFs_pair (f1 f2 : InFile) :
    stagedBakeFs [f1, f2] =
      [("input1.jpg", FsEntry.file f1.buffer),
       ("input2.jpg", FsEntry.file f2.buffer)] := rfl

/-- The staged motion filesystem on a two-element `files` array, literally. -/
theorem stagedMotionFs_pair (f1 f2 : InFile) :
    stagedMotionFs [f1, f2] =
      [("motion1.bin", FsEntry.file f1.buffer),
       ("motion2.bin", FsEntry.file f2.buffer)] := rfl

/-- Lookup in the staged bake filesystem. -/
theorem readFile_stagedBakeFs (f1 f2 : InFile) (p : String) :
    readFile (stagedBakeFs [f1, f2]) p =
      if p = "input1.jpg" then some f1.buffer
      else if p = "input2.jpg" then some f2.buffer
      else none := by
  rw [stagedBakeFs_pair]
  by_cases h1 : p = "input1.jpg" <;> by_cases h2 : p = "input2.jpg" <;>
    simp_all [readFile, mapGet] <;> simp [eq_comm, h1, h2]

/-- Lookup in the staged motion filesystem. -/
theorem readFile_stagedMotionFs (f1 f2 : InFile) (p : String) :
    readFile (stagedMotionFs [f1, f2]) p =
      if p = "motion1.bin" then some f1.buffer
      else if p = "motion2.bin" then some f2.buffer
      else none := by
  rw [stagedMotionFs_pair]
  by_cases h1 : p = "motion1.bin" <;> by_cases h2 : p = "motion2.bin" <;>
    simp_all [readFile, mapGet] <;> simp [eq_comm, h1, h2]

/-- Decomposition of the bake argument list: the fixed leading flags,
then the optional `--multichannel` segment, then the optional
`--target-peak` segment, then the two fixed positional inputs. -/
theorem bakeArgs_decomp (opts : BakeOpts) :
    bakeArgs opts =
      ["ultrahdr-bake.wasm", "--out", opts.outName,
        "--base-q", toString opts.baseQ,
        "--gm-q", toString opts.gainmapQ,
        "--scale", toString opts.scale] ++
      ((if opts.multichannel then ["--multichannel"] else []) ++
      ((match opts.targetPeak with
        | some v => ["--target-peak", toString v]
        | none => []) ++
      SAFE_BAKE_NAMES)) := by
  rcases opts with ⟨o, bq, gq, sc, mc, tp⟩
  cases mc <;> cases tp <;> simp [bakeArgs]

/-- Decomposition of the motion argument list. -/
theorem motionArgs_decomp (opts : MotionOpts) :
    motionArgs opts =
      ["ultrahdr-bake.wasm", "motion", "--out", opts.outName] ++
      ((match opts.timestampUs with
        | some v => ["--timestamp-us", toString v]
        | none => []) ++
      SAFE_MOTION_NAMES) := by
  rcases opts with ⟨o, ts⟩
  cases ts <;> simp [motionArgs]

/-! ## Claim C2 -/

/-- C2: At the start of every `runBake` and every `runMotion` invocation
the worker clears the virtual filesystem before writing any input: the
whole invocation is independent of the filesystem left by any previous
invocation (including a failed one), and immediately after input staging
the filesystem maps exactly the two fixed input names to the caller's
byte buffers and nothing else. -/
theorem c2_reset_before_staging_leaves_exactly_two_inputs :
    (∀ (env : Env) (fs fs' : FS) (m : BakeMsg),
      runBake env fs m = runBake env fs' m) ∧
    (∀ (env : Env) (fs fs' : FS) (m : MotionMsg),
      runMotion env fs m = runMotion env fs' m) ∧
    (∀ (f1 f2 : InFile) (p : String),
      readFile (stagedBakeFs [f1, f2]) p =
        if p = "input1.jpg" then some f1.buffer
        else if p = "input2.jpg" then some f2.buffer
        else none) ∧
    (∀ (f1 f2 : InFile) (p : String),
      readFile (stagedMotionFs [f1, f2]) p =
        if p = "motion1.bin" then some f1.buffer
        else if p = "motion2.bin" then some f2.buffer
        else none) :=
  ⟨fun _ _ _ _ => rfl, fun _ _ _ _ => rfl,
   readFile_stagedBakeFs, readFile_stagedMotionFs⟩

/-- Witness for C2 at a concrete input. -/
theorem c2_reset_before_staging_leaves_exactly_two_inputs_witness :
    readFile (stagedBakeFs [⟨"a", [1]⟩, ⟨"b", [2]⟩]) "input1.jpg" = some [1] :=
  c2_reset_before_staging_leaves_exactly_two_inputs.2.2.1 ⟨"a", [1]⟩ ⟨"b", [2]⟩
    "input1.jpg"

/-! ## Claim C6 -/

/-- C6: Each input buffer is written under a fixed safe name
(`input1.jpg`/`input2.jpg` for bake, `motion1.bin`/`motion2.bin` for
motion).  A caller-supplied input filename is never used as a
virtual-filesystem path (the whole invocation is independent of the
`name` fields of the `files` entries, and the staged filesystem has no
entry outside the safe names), and never passed as a positional input
argument (the argument list is a function of the options alone and its
positional inputs are the safe names). -/
theorem c6_safe_names_never_caller_filenames :
    (∀ (env : Env) (fs : FS) (opts : BakeOpts) (n1 n2 m1 m2 : String)
      (b1 b2 : ByteBuf),
      runBake env fs ⟨some [⟨n1, b1⟩, ⟨n2, b2⟩], opts⟩ =
        runBake env fs ⟨some [⟨m1, b1⟩, ⟨m2, b2⟩], opts⟩) ∧
    (∀ (env : Env) (fs : FS) (opts : MotionOpts) (n1 n2 m1 m2 : String)
      (b1 b2 : ByteBuf),
      runMotion env fs ⟨some [⟨n1, b1⟩, ⟨n2, b2⟩], opts⟩ =
        runMotion env fs ⟨some [⟨m1, b1⟩, ⟨m2, b2⟩], opts⟩) ∧
    (∀ (f1 f2 : InFile) (p : String), p ∉ SAFE_BAKE_NAMES →
      readFile (stagedBakeFs [f1, f2]) p = none) ∧
    (∀ (f1 f2 : InFile) (p : String), p ∉ SAFE_MOTION_NAMES →
      readFile (stagedMotionFs [f1, f2]) p = none) ∧
    (∀ opts : BakeOpts, ∃ pre, bakeArgs opts = pre ++ SAFE_BAKE_NAMES) ∧
    (∀ opts : MotionOpts, ∃ pre, motionArgs opts = pre ++ SAFE_MOTION_NAMES) := by
  refine ⟨fun _ _ _ _ _ _ _ _ _ => rfl, fun _ _ _ _ _ _ _ _ _ => rfl,
    ?_, ?_, fun opts => ⟨_, rfl⟩, fun opts => ⟨_, rfl⟩⟩
  · intro f1 f2 p hp
    simp only [SAFE_BAKE_NAMES, List.mem_cons, List.not_mem_nil, or_false,
      not_or] at hp
    rw [readFile_stagedBakeFs, if_neg hp.1, if_neg hp.2]
  · intro f1 f2 p hp
    simp only [SAFE_MOTION_NAMES, List.mem_cons, List.not_mem_nil, or_false,
      not_or] at hp
    rw [readFile_stagedMotionFs, if_neg hp.1, if_neg hp.2]

/-- Witness for C6 at a concrete input: a caller file named `a.jpg` does
not appear in the staged filesystem. -/
theorem c6_safe_names_never_caller_filenames_witness :
    readFile (stagedBakeFs [⟨"a.jpg", [1]⟩, ⟨"b.jpg", [2]⟩]) "a.jpg" = none :=
  c6_safe_names_never_caller_filenames.2.2.1 ⟨"a.jpg", [1]⟩ ⟨"b.jpg", [2]⟩
    "a.jpg" (by decide)

/-! ## Claim C9 -/

theorem infix_mid {α : Type} (a b r : List α) : b <:+: a ++ (b ++ r) :=
  ⟨a, r, by simp⟩

theorem infix_parts {α : Type} (s mid t : List α) : mid <:+: s ++ mid ++ t :=
  ⟨s, t, rfl⟩

/-- C9: The argument list encodes each optional option iff it was
supplied — `--multichannel` is present iff `opts.multichannel`;
`--target-peak` followed by the value is present iff `opts.targetPeak`
is defined; `--timestamp-us` followed by the value is present iff
`opts.timestampUs` is defined — and the output name, the quality/scale
flags (bake) and the two fixed positional input names are always
present.  (The absence directions assume the sanity side condition that
no option-derived string textually equals an optional flag token.) -/
theorem c9_args_encode_each_option_iff_supplied (bo : BakeOpts) (mo : MotionOpts)
    (hb : noFlagCollision bo = true) (hm : mo.outName ≠ "--timestamp-us") :
    (("--multichannel" ∈ bakeArgs bo ↔ bo.multichannel = true) ∧
     (∀ v, bo.targetPeak = some v →
        ["--target-peak", toString v] <:+: bakeArgs bo) ∧
     (bo.targetPeak = none → "--target-peak" ∉ bakeArgs bo) ∧
     ["--out", bo.outName] <:+: bakeArgs bo ∧
     ["--base-q", toString bo.baseQ] <:+: bakeArgs bo ∧
     ["--gm-q", toString bo.gainmapQ] <:+: bakeArgs bo ∧
     ["--scale", toString bo.scale] <:+: bakeArgs bo ∧
     SAFE_BAKE_NAMES <:+ bakeArgs bo) ∧
    ((∀ v, mo.timestampUs = some v →
        ["--timestamp-us", toString v] <:+: motionArgs mo) ∧
     (mo.timestampUs = none → "--timestamp-us" ∉ motionArgs mo) ∧
     ["--out", mo.outName] <:+: motionArgs mo ∧
     SAFE_MOTION_NAMES <:+ motionArgs mo) := by
  constructor
  · rcases bo with ⟨o, bq, gq, sc, mc, tp⟩
    simp only [noFlagCollision, Bool.and_eq_true, bne_iff_ne, and_assoc] at hb
    obtain ⟨h1, h2, h3, h4, h5, h6, h7, h8, h9⟩ := hb
    refine ⟨?_, ?_, ?_, ?_, ?_, ?_, ?_, ?_⟩
    · cases mc
      · simp only [Bool.false_eq_true, iff_false]
        rcases tp with - | v
        · simp [bakeArgs_decomp, SAFE_BAKE_NAMES, Ne.symm h1, Ne.symm h3,
            Ne.symm h5, Ne.symm h7]
        · have h9' : toString v ≠ "--multichannel" := by
            simpa [Option.all] using h9
          simp [bakeArgs_decomp, SAFE_BAKE_NAMES, Ne.symm h1, Ne.symm h3,
            Ne.symm h5, Ne.symm h7, Ne.symm h9']
      · simp [bakeArgs_decomp]
    · intro v hv
      subst hv
      rw [bakeArgs_decomp]
      exact (infix_mid _ _ _).trans (List.suffix_append _ _).isInfix
    · intro hv
      subst hv
      cases mc <;>
        simp [bakeArgs_decomp, SAFE_BAKE_NAMES, Ne.symm h2, Ne.symm h4,
          Ne.symm h6, Ne.symm h8]
    · rw [bakeArgs_decomp]
      exact (infix_parts ["ultrahdr-bake.wasm"] ["--out", o]
        ["--base-q", toString bq, "--gm-q", toString gq, "--scale", toString sc]).trans
        (List.prefix_append _ _).isInfix
    · rw [bakeArgs_decomp]
      exact (infix_parts ["ultrahdr-bake.wasm", "--out", o]
        ["--base-q", toString bq]
        ["--gm-q", toString gq, "--scale", toString sc]).trans
        (List.prefix_append _ _).isInfix
    · rw [bakeArgs_decomp]
      exact (infix_parts ["ultrahdr-bake.wasm", "--out", o, "--base-q", toString bq]
        ["--gm-q", toString gq] ["--scale", toString sc]).trans
        (List.prefix_append _ _).isInfix
    · rw [bakeArgs_decomp]
      exact (infix_parts ["ultrahdr-bake.wasm", "--out", o, "--base-q", toString bq,
        "--gm-q", toString gq] ["--scale", toString sc] []).trans
        (List.prefix_append _ _).isInfix
    · rw [bakeArgs_decomp]
      exact (List.suffix_append _ _).trans
        ((List.suffix_append _ _).trans (List.suffix_append _ _))
  · rcases mo with ⟨o, ts⟩
    refine ⟨?_, ?_, ?_, ?_⟩
    · intro v hv
      subst hv
      rw [motionArgs_decomp]
      exact List.prefix_append _ _ |>.isInfix |>.trans
        (List.suffix_append _ _).isInfix
    · intro hv
      subst hv
      simp [motionArgs_decomp, SAFE_MOTION_NAMES, Ne.symm hm]
    · rw [motionArgs_decomp]
      exact (infix_parts ["ultrahdr-bake.wasm", "motion"] ["--out", o] []).trans
        (List.prefix_append _ _).isInfix
    · rw [motionArgs_decomp]
      exact (List.suffix_append _ _).trans (List.suffix_append _ _)

/-- Witness for C9 at concrete options with every optional option
supplied. -/
theorem c9_args_encode_each_option_iff_supplied_witness :
    noFlagCollision opts1 = true ∧ mopts1.outName ≠ "--timestamp-us" ∧
    "--multichannel" ∈ bakeArgs opts1 ∧ SAFE_MOTION_NAMES <:+ motionArgs mopts1 :=
  ⟨by decide, by decide,
   (c9_args_encode_each_option_iff_supplied opts1 mopts1 (by decide)
      (by decide)).1.1.mpr rfl,
   (c9_args_encode_each_option_iff_supplied opts1 mopts1 (by decide)
      (by decide)).2.2.2.2⟩

/-! ## Claim C4 -/

/-- C4: If the sandboxed process's entry point returns normally without
having created the expected output file under the caller-chosen output
name, the invocation fails: `runCli` rejects with `Output file missing`,
the caller receives an `error` event with exactly that message, and no
`done` event is emitted for the job. -/
theorem c4_missing_output_errors_no_done (env : Env) (fs0 : FS) (fl : List InFile)
    (opts : BakeOpts) (wb : ByteBuf) (lines : List (Bool × String)) (fs2 : FS)
    (h2 : fl.length = 2)
    (hw : env.fetchWasm = Except.ok wb)
    (hi : env.instantiate wb = Except.ok ())
    (hs : env.start (bakeArgs opts) (stagedBakeFs fl) = (lines, fs2, none))
    (ho : readFile fs2 opts.outName = none) :
    runCli env (stagedBakeFs fl) (bakeArgs opts) opts.outName =
      ⟨[WorkerEvent.status "Fetching wasm…",
        WorkerEvent.status "Running ultrahdr-bake…"] ++ lines.map lineEvent,
       fs2, some (mkError "Output file missing"), true⟩ ∧
    (handleMessage env fs0 (WorkerMsg.bake ⟨some fl, opts⟩)).1 =
      [WorkerEvent.status "Preparing WASI FS…",
       WorkerEvent.status "Fetching wasm…",
       WorkerEvent.status "Running ultrahdr-bake…"] ++ lines.map lineEvent ++
      [WorkerEvent.error "Output file missing"] ∧
    ∀ n b, WorkerEvent.done n b ∉
      (handleMessage env fs0 (WorkerMsg.bake ⟨some fl, opts⟩)).1 := by
  have hcli : runCli env (stagedBakeFs fl) (bakeArgs opts) opts.outName =
      ⟨[WorkerEvent.status "Fetching wasm…",
        WorkerEvent.status "Running ultrahdr-bake…"] ++ lines.map lineEvent,
       fs2, some (mkError "Output file missing"), true⟩ := by
    simp [runCli, hw, hi, hs, ho]
  have hmsg : (handleMessage env fs0 (WorkerMsg.bake ⟨some fl, opts⟩)).1 =
      [WorkerEvent.status "Preparing WASI FS…",
       WorkerEvent.status "Fetching wasm…",
       WorkerEvent.status "Running ultrahdr-bake…"] ++ lines.map lineEvent ++
      [WorkerEvent.error "Output file missing"] := by
    simp [handleMessage, runBake, h2, hcli, errPayload, mkError]
  refine ⟨hcli, hmsg, ?_⟩
  intro n b hmem
  rw [hmsg] at hmem
  simp only [List.append_assoc, List.mem_append, List.mem_cons,
    List.not_mem_nil, or_false] at hmem
  rcases hmem with (h | h | h) | h | h <;>
    first
    | exact WorkerEvent.noConfusion h
    | exact done_not_mem_lineEvents lines n b h

/-- Witness for C4: the concrete environment whose process terminates
without writing anything. -/
theorem c4_missing_output_errors_no_done_witness :
    (handleMessage envNoOutput [] (WorkerMsg.bake ⟨some [⟨"a", [1]⟩, ⟨"b", [2]⟩], opts0⟩)).1 =
      [WorkerEvent.status "Preparing WASI FS…",
       WorkerEvent.status "Fetching wasm…",
       WorkerEvent.status "Running ultrahdr-bake…",
       WorkerEvent.error "Output file missing"] :=
  (c4_missing_output_errors_no_done envNoOutput [] [⟨"a", [1]⟩, ⟨"b", [2]⟩]
    opts0 [0] [] (stagedBakeFs [⟨"a", [1]⟩, ⟨"b", [2]⟩]) rfl rfl rfl rfl
    (by decide)).2.1

/-! ## Claim C7 -/

theorem runCli_no_error_events (env : Env) (fs : FS) (args : List String)
    (out : String) : (runCli env fs args out).events.filter isErrorEvent = [] := by
  rcases hw : env.fetchWasm with e | wb
  · simp [runCli, hw, isErrorEvent]
  · rcases hi : env.instantiate wb with e | u
    · simp [runCli, hw, hi, isErrorEvent]
    · rcases hs : env.start args fs with ⟨lines, fs2, trap⟩
      rcases trap with - | e
      · rcases ho : readFile fs2 out with - | b
        · simp [runCli, hw, hi, hs, ho, List.filter_append,
            filter_error_lineEvents, isErrorEvent]
        · simp [runCli, hw, hi, hs, ho, List.filter_append,
            filter_error_lineEvents, isErrorEvent]
      · simp [runCli, hw, hi, hs, List.filter_append,
          filter_error_lineEvents, isErrorEvent]

theorem runBake_no_error_events (env : Env) (fs : FS) (m : BakeMsg) :
    (runBake env fs m).events.filter isErrorEvent = [] := by
  rcases m with ⟨files, opts⟩
  rcases files with - | fl
  · simp [runBake, isErrorEvent]
  · by_cases h2 : fl.length = 2
    · simpa [runBake, h2, isErrorEvent] using
        runCli_no_error_events env (stagedBakeFs fl) (bakeArgs opts) opts.outName
    · simp [runBake, h2, isErrorEvent]

theorem runMotion_no_error_events (env : Env) (fs : FS) (m : MotionMsg) :
    (runMotion env fs m).events.filter isErrorEvent = [] := by
  rcases m with ⟨files, opts⟩
  rcases files with - | fl
  · simp [runMotion, isErrorEvent]
  · by_cases h2 : fl.length = 2
    · simpa [runMotion, h2, isErrorEvent] using
        runCli_no_error_events env (stagedMotionFs fl) (motionArgs opts) opts.outName
    · simp [runMotion, h2, isErrorEvent]

/-- C7: Whenever `runBake` or `runMotion` rejects, for any reason, the
caller receives exactly one `error` event, appended after the events the
run emitted, and its payload is the thrown error's `.message` verbatim
(or its `String(err)` form when the message is empty, per `errPayload`);
no failure is silently swallowed. -/
theorem c7_rejection_surfaces_exactly_one_error_event :
    (∀ (env : Env) (fs : FS) (m : BakeMsg) (e : JsError),
      (runBake env fs m).outcome = some e →
      (handleMessage env fs (WorkerMsg.bake m)).1 =
        (runBake env fs m).events ++ [WorkerEvent.error (errPayload e)] ∧
      (handleMessage env fs (WorkerMsg.bake m)).1.filter isErrorEvent =
        [WorkerEvent.error (errPayload e)]) ∧
    (∀ (env : Env) (fs : FS) (m : MotionMsg) (e : JsError),
      (runMotion env fs m).outcome = some e →
      (handleMessage env fs (WorkerMsg.motion m)).1 =
        (runMotion env fs m).events ++ [WorkerEvent.error (errPayload e)] ∧
      (handleMessage env fs (WorkerMsg.motion m)).1.filter isErrorEvent =
        [WorkerEvent.error (errPayload e)]) := by
  constructor
  · intro env fs m e ho
    have hev : (handleMessage env fs (WorkerMsg.bake m)).1 =
        (runBake env fs m).events ++ [WorkerEvent.error (errPayload e)] := by
      simp [handleMessage, ho]
    refine ⟨hev, ?_⟩
    rw [hev, List.filter_append, runBake_no_error_events]
    simp [isErrorEvent]
  · intro env fs m e ho
    have hev : (handleMessage env fs (WorkerMsg.motion m)).1 =
        (runMotion env fs m).events ++ [WorkerEvent.error (errPayload e)] := by
      simp [handleMessage, ho]
    refine ⟨hev, ?_⟩
    rw [hev, List.filter_append, runMotion_no_error_events]
    simp [isErrorEvent]

/-- Witness for C7: the malformed-input run rejects and its trace carries
exactly one error event with the thrown message. -/
theorem c7_rejection_surfaces_exactly_one_error_event_witness :
    (runBake envMalformed [] ⟨some [⟨"a", [0]⟩, ⟨"b", [1]⟩], opts0⟩).outcome =
      some (mkError "exit with exit code 1") ∧
    (handleMessage envMalformed []
        (WorkerMsg.bake ⟨some [⟨"a", [0]⟩, ⟨"b", [1]⟩], opts0⟩)).1.filter
      isErrorEvent = [WorkerEvent.error "exit with exit code 1"] :=
  ⟨by decide,
   (c7_rejection_surfaces_exactly_one_error_event.1 envMalformed []
      ⟨some [⟨"a", [0]⟩, ⟨"b", [1]⟩], opts0⟩ (mkError "exit with exit code 1")
      (by decide)).2⟩

/-! ## Claim C1 -/

theorem runCli_progress (env : Env) (fs : FS) (args : List String) (out : String) :
    ((runCli env fs args out).outcome = none ∧
      ∃ n b, statusProj (runCli env fs args out).events =
        [WorkerEvent.status "Fetching wasm…",
         WorkerEvent.status "Running ultrahdr-bake…", WorkerEvent.done n b]) ∨
    ((∃ e, (runCli env fs args out).outcome = some e) ∧
      (statusProj (runCli env fs args out).events =
          [WorkerEvent.status "Fetching wasm…"] ∨
        statusProj (runCli env fs args out).events =
          [WorkerEvent.status "Fetching wasm…",
           WorkerEvent.status "Running ultrahdr-bake…"])) := by
  rcases hw : env.fetchWasm with e | wb
  · exact Or.inr ⟨⟨e, by simp [runCli, hw]⟩,
      Or.inl (by simp [runCli, hw, statusProj, isStatusOrTerminal])⟩
  · rcases hi : env.instantiate wb with e | u
    · exact Or.inr ⟨⟨e, by simp [runCli, hw, hi]⟩,
        Or.inr (by simp [runCli, hw, hi, statusProj, isStatusOrTerminal])⟩
    · rcases hs : env.start args fs with ⟨lines, fs2, trap⟩
      rcases trap with - | e
      · rcases ho : readFile fs2 out with - | b
        · refine Or.inr ⟨⟨mkError "Output file missing",
            by simp [runCli, hw, hi, hs, ho]⟩, Or.inr ?_⟩
          simp [runCli, hw, hi, hs, ho, statusProj, List.filter_append,
            isStatusOrTerminal]
          simpa [statusProj] using statusProj_lineEvents lines
        · refine Or.inl ⟨by simp [runCli, hw, hi, hs, ho], out, b, ?_⟩
          simp [runCli, hw, hi, hs, ho, statusProj, List.filter_append,
            isStatusOrTerminal]
          simpa [statusProj] using statusProj_lineEvents lines
      · refine Or.inr ⟨⟨e, by simp [runCli, hw, hi, hs]⟩, Or.inr ?_⟩
        simp [runCli, hw, hi, hs, statusProj, List.filter_append,
          isStatusOrTerminal]
        simpa [statusProj] using statusProj_lineEvents lines

theorem progress_shape_prep_error (p : String) :
    ProgressShape [WorkerEvent.status "Preparing WASI FS…", WorkerEvent.error p] := by
  refine ⟨1, WorkerEvent.error p, by omega, rfl, ?_, by simp⟩
  simp [statusProj, isStatusOrTerminal, statusSeq]

theorem progress_cli_success (env : Env) (fs : FS) (args : List String)
    (out : String) (h : (runCli env fs args out).outcome = none) :
    ProgressShape (WorkerEvent.status "Preparing WASI FS…" ::
      (runCli env fs args out).events) := by
  rcases runCli_progress env fs args out with ⟨-, n, b, hp⟩ | ⟨⟨e, he⟩, -⟩
  · refine ⟨3, WorkerEvent.done n b, by omega, rfl, ?_, fun _ _ _ => rfl⟩
    simp [statusProj, isStatusOrTerminal] at hp ⊢
    simp [hp, statusSeq]
  · rw [h] at he
    exact Option.noConfusion he

theorem progress_cli_failure (env : Env) (fs : FS) (args : List String)
    (out : String) (e : JsError) (h : (runCli env fs args out).outcome = some e)
    (p : String) :
    ProgressShape (WorkerEvent.status "Preparing WASI FS…" ::
      ((runCli env fs args out).events ++ [WorkerEvent.error p])) := by
  rcases runCli_progress env fs args out with ⟨hn, -⟩ | ⟨-, hp | hp⟩
  · rw [h] at hn
    exact Option.noConfusion hn
  · refine ⟨2, WorkerEvent.error p, by omega, rfl, ?_, by simp⟩
    simp [statusProj, isStatusOrTerminal, List.filter_append] at hp ⊢
    simp [hp, statusSeq]
  · refine ⟨3, WorkerEvent.error p, by omega, rfl, ?_, by simp⟩
    simp [statusProj, isStatusOrTerminal, List.filter_append] at hp ⊢
    simp [hp, statusSeq]

/-- Amended C1: for every `runBake` or `runMotion` invocation, whatever
the environment does, the status events appear in the fixed order
`preparing filesystem` → `fetching binary` → `running` with no
reordering and no repetition, followed by exactly one terminal event
(`done` or `error`); on failure the sequence may stop early (later
statuses are skipped), and a `done` terminal occurs only after all three
statuses.  (The claim as frozen asserts that all three statuses occur in
every invocation; the counterexample refutes that for early failures.) -/
theorem c1_status_events_ordered_prefix_then_terminal :
    ∀ (env : Env) (fs : FS),
      (∀ m : BakeMsg, ProgressShape (handleMessage env fs (WorkerMsg.bake m)).1) ∧
      (∀ m : MotionMsg, ProgressShape (handleMessage env fs (WorkerMsg.motion m)).1) := by
  intro env fs
  constructor
  · intro m
    rcases m with ⟨files, opts⟩
    rcases files with - | fl
    · have h : (handleMessage env fs (WorkerMsg.bake ⟨none, opts⟩)).1 =
          [WorkerEvent.status "Preparing WASI FS…",
           WorkerEvent.error (errPayload typeErrorFilesLength)] := by
        simp [handleMessage, runBake]
      rw [h]
      exact progress_shape_prep_error _
    · by_cases h2 : fl.length = 2
      · rcases ho : (runCli env (stagedBakeFs fl) (bakeArgs opts)
            opts.outName).outcome with - | e
        · have h : (handleMessage env fs (WorkerMsg.bake ⟨some fl, opts⟩)).1 =
              WorkerEvent.status "Preparing WASI FS…" ::
                (runCli env (stagedBakeFs fl) (bakeArgs opts) opts.outName).events := by
            simp [handleMessage, runBake, h2, ho]
          rw [h]
          exact progress_cli_success _ _ _ _ ho
        · have h : (handleMessage env fs (WorkerMsg.bake ⟨some fl, opts⟩)).1 =
              WorkerEvent.status "Preparing WASI FS…" ::
                ((runCli env (stagedBakeFs fl) (bakeArgs opts) opts.outName).events ++
                 [WorkerEvent.error (errPayload e)]) := by
            simp [handleMessage, runBake, h2, ho]
          rw [h]
          exact progress_cli_failure _ _ _ _ e ho _
      · have h : (handleMessage env fs (WorkerMsg.bake ⟨some fl, opts⟩)).1 =
            [WorkerEvent.status "Preparing WASI FS…",
             WorkerEvent.error (errPayload (mkError "Need exactly two JPEG inputs"))] := by
          simp [handleMessage, runBake, h2]
        rw [h]
        exact progress_shape_prep_error _
  · intro m
    rcases m with ⟨files, opts⟩
    rcases files with - | fl
    · have h : (handleMessage env fs (WorkerMsg.motion ⟨none, opts⟩)).1 =
          [WorkerEvent.status "Preparing WASI FS…",
           WorkerEvent.error (errPayload typeErrorFilesLength)] := by
        simp [handleMessage, runMotion]
      rw [h]
      exact progress_shape_prep_error _
    · by_cases h2 : fl.length = 2
      · rcases ho : (runCli env (stagedMotionFs fl) (motionArgs opts)
            opts.outName).outcome with - | e
        · have h : (handleMessage env fs (WorkerMsg.motion ⟨some fl, opts⟩)).1 =
              WorkerEvent.status "Preparing WASI FS…" ::
                (runCli env (stagedMotionFs fl) (motionArgs opts) opts.outName).events := by
            simp [handleMessage, runMotion, h2, ho]
          rw [h]
          exact progress_cli_success _ _ _ _ ho
        · have h : (handleMessage env fs (WorkerMsg.motion ⟨some fl, opts⟩)).1 =
              WorkerEvent.status "Preparing WASI FS…" ::
                ((runCli env (stagedMotionFs fl) (motionArgs opts) opts.outName).events ++
                 [WorkerEvent.error (errPayload e)]) := by
            simp [handleMessage, runMotion, h2, ho]
          rw [h]
          exact progress_cli_failure _ _ _ _ e ho _
      · have h : (handleMessage env fs (WorkerMsg.motion ⟨some fl, opts⟩)).1 =
            [WorkerEvent.status "Preparing WASI FS…",
             WorkerEvent.error (errPayload (mkError "Need exactly two inputs (photo + video)"))] := by
          simp [handleMessage, runMotion, h2]
        rw [h]
        exact progress_shape_prep_error _

/-- Witness for the amended C1 at a concrete invocation. -/
theorem c1_status_events_ordered_prefix_then_terminal_witness :
    ProgressShape (handleMessage envNoOutput []
      (WorkerMsg.bake ⟨some [⟨"a", [1]⟩, ⟨"b", [2]⟩], opts0⟩)).1 :=
  (c1_status_events_ordered_prefix_then_terminal envNoOutput []).1
    ⟨some [⟨"a", [1]⟩, ⟨"b", [2]⟩], opts0⟩

/-- Counterexample to C1 as frozen: a bake invocation given an empty
`files` array emits only the `preparing filesystem` status and the
terminal `error` — the claimed `fetching binary` status event (and the
`running` one) never occurs for this invocation, so the status events do
not follow the full claimed four-step sequence. -/
theorem c1_counterexample_early_failure_skips_statuses :
    (handleMessage envNoOutput [] (WorkerMsg.bake ⟨some [], opts0⟩)).1 =
      [WorkerEvent.status "Preparing WASI FS…",
       WorkerEvent.error "Need exactly two JPEG inputs"] ∧
    WorkerEvent.status "Fetching wasm…" ∉
      (handleMessage envNoOutput [] (WorkerMsg.bake ⟨some [], opts0⟩)).1 := by
  constructor
  · rfl
  · decide

/-! ## Claim C3 -/

/-- C3: A message shaped like the published `BakeRequest`/`MotionRequest`
types (`hdr`/`sdr` or `photo`/`video` plus `opts`, no `files` array) makes
the handler dereference the absent `req.files`: the invocation rejects
with the resulting `TypeError` immediately after the `preparing` status,
before control ever reaches `WebAssembly.instantiate`, and the caller
sees exactly `[status, error]`.  Conversely a `done` event is reachable
only for messages carrying a `files` array of exactly two entries. -/
theorem c3_published_requests_error_before_instantiation :
    (∀ (env : Env) (fs : FS) (r : BakeRequest),
      runBake env fs r.toMsg =
        ⟨[WorkerEvent.status "Preparing WASI FS…"], resetFs,
          some typeErrorFilesLength, false⟩ ∧
      (handleMessage env fs (WorkerMsg.bake r.toMsg)).1 =
        [WorkerEvent.status "Preparing WASI FS…",
         WorkerEvent.error (errPayload typeErrorFilesLength)]) ∧
    (∀ (env : Env) (fs : FS) (r : MotionRequest),
      runMotion env fs r.toMsg =
        ⟨[WorkerEvent.status "Preparing WASI FS…"], resetFs,
          some typeErrorFilesLength, false⟩ ∧
      (handleMessage env fs (WorkerMsg.motion r.toMsg)).1 =
        [WorkerEvent.status "Preparing WASI FS…",
         WorkerEvent.error (errPayload typeErrorFilesLength)]) ∧
    (∀ (env : Env) (fs : FS) (m : BakeMsg) (n : String) (b : ByteBuf),
      WorkerEvent.done n b ∈ (handleMessage env fs (WorkerMsg.bake m)).1 →
      ∃ fl, m.files = some fl ∧ fl.length = 2) ∧
    (∀ (env : Env) (fs : FS) (m : MotionMsg) (n : String) (b : ByteBuf),
      WorkerEvent.done n b ∈ (handleMessage env fs (WorkerMsg.motion m)).1 →
      ∃ fl, m.files = some fl ∧ fl.length = 2) := by
  refine ⟨fun env fs r => ⟨rfl, rfl⟩, fun env fs r => ⟨rfl, rfl⟩, ?_, ?_⟩
  · intro env fs m n b hmem
    rcases m with ⟨files, opts⟩
    rcases files with - | fl
    · simp [handleMessage, runBake] at hmem
    · by_cases h2 : fl.length = 2
      · exact ⟨fl, rfl, h2⟩
      · simp [handleMessage, runBake, h2] at hmem
  · intro env fs m n b hmem
    rcases m with ⟨files, opts⟩
    rcases files with - | fl
    · simp [handleMessage, runMotion] at hmem
    · by_cases h2 : fl.length = 2
      · exact ⟨fl, rfl, h2⟩
      · simp [handleMessage, runMotion, h2] at hmem

/-- Witness for C3: a successful concrete run really does carry a `files`
array of exactly two entries. -/
theorem c3_published_requests_error_before_instantiation_witness :
    ∃ fl, (BakeMsg.mk (some [⟨"a", [1]⟩, ⟨"b", [2]⟩]) opts0).files = some fl ∧
      fl.length = 2 :=
  c3_published_requests_error_before_instantiation.2.2.1
    (envWrite "out.jpg" [9, 9]) [] ⟨some [⟨"a", [1]⟩, ⟨"b", [2]⟩], opts0⟩
    "out.jpg" [9, 9] (by decide)

/-! ## Claim C8 -/

/-- Counterexample to C8 as frozen: a concrete bake invocation whose
sandboxed process fails (the malformed-image scenario) surfaces the
failure via the `error` event, yet the virtual filesystem afterward still
holds the two staged inputs — it is not empty.  (`resetFs` is the empty
filesystem.) -/
theorem c8_counterexample_fs_not_empty_after_failure :
    WorkerEvent.error "exit with exit code 1" ∈
      (handleMessage envMalformed []
        (WorkerMsg.bake ⟨some [⟨"a", [0]⟩, ⟨"b", [1]⟩], opts0⟩)).1 ∧
    (handleMessage envMalformed []
        (WorkerMsg.bake ⟨some [⟨"a", [0]⟩, ⟨"b", [1]⟩], opts0⟩)).2 =
      [("input1.jpg", FsEntry.file [0]), ("input2.jpg", FsEntry.file [1])] ∧
    (handleMessage envMalformed []
        (WorkerMsg.bake ⟨some [⟨"a", [0]⟩, ⟨"b", [1]⟩], opts0⟩)).2 ≠ resetFs := by
  refine ⟨?_, rfl, ?_⟩ <;> decide

/-- Amended C8: after a bake invocation fails once the inputs were
staged, the virtual filesystem is not empty — it still holds the staged
inputs (and whatever the process changed); what holds instead is that the
failure does not leak into any later invocation, because `runBake` and
`runMotion` reset the filesystem at the start, behaving identically from
the failure's filesystem and from the empty one. -/
theorem c8_failure_leaves_staged_fs_next_run_resets (env : Env) (fs0 : FS)
    (fl : List InFile) (opts : BakeOpts) (wb : ByteBuf)
    (lines : List (Bool × String)) (e : JsError)
    (h2 : fl.length = 2)
    (hw : env.fetchWasm = Except.ok wb)
    (hi : env.instantiate wb = Except.ok ())
    (hs : env.start (bakeArgs opts) (stagedBakeFs fl) =
      (lines, stagedBakeFs fl, some e)) :
    (handleMessage env fs0 (WorkerMsg.bake ⟨some fl, opts⟩)).1 =
      [WorkerEvent.status "Preparing WASI FS…",
       WorkerEvent.status "Fetching wasm…",
       WorkerEvent.status "Running ultrahdr-bake…"] ++ lines.map lineEvent ++
      [WorkerEvent.error (errPayload e)] ∧
    (handleMessage env fs0 (WorkerMsg.bake ⟨some fl, opts⟩)).2 = stagedBakeFs fl ∧
    (∀ (env' : Env) (m' : BakeMsg),
      runBake env' (stagedBakeFs fl) m' = runBake env' resetFs m') ∧
    (∀ (env' : Env) (m' : MotionMsg),
      runMotion env' (stagedBakeFs fl) m' = runMotion env' resetFs m') := by
  have hcli : runCli env (stagedBakeFs fl) (bakeArgs opts) opts.outName =
      ⟨[WorkerEvent.status "Fetching wasm…",
        WorkerEvent.status "Running ultrahdr-bake…"] ++ lines.map lineEvent,
       stagedBakeFs fl, some e, true⟩ := by
    simp [runCli, hw, hi, hs]
  refine ⟨?_, ?_, fun _ _ => rfl, fun _ _ => rfl⟩
  · simp [handleMessage, runBake, h2, hcli]
  · simp [handleMessage, runBake, h2, hcli]

/-- Witness for the amended C8 at the concrete malformed-input run. -/
theorem c8_failure_leaves_staged_fs_next_run_resets_witness :
    (handleMessage envMalformed []
        (WorkerMsg.bake ⟨some [⟨"a", [0]⟩, ⟨"b", [1]⟩], opts0⟩)).2 =
      stagedBakeFs [⟨"a", [0]⟩, ⟨"b", [1]⟩] :=
  (c8_failure_leaves_staged_fs_next_run_resets envMalformed []
    [⟨"a", [0]⟩, ⟨"b", [1]⟩] opts0 [0] [(true, "Error: MalformedImage")]
    (mkError "exit with exit code 1") rfl rfl rfl rfl).2.1

/-! ## Claim C5 -/

/-- Counterexample to C5: two bake requests posted back to back, with the
second delivered while the first is suspended awaiting the wasm fetch (a
schedule the worker event loop permits, since `onmessage` neither awaits
the running job nor keeps a busy flag).  The second job starts
immediately — it is neither queued until completion nor rejected — and
the tagged event trace interleaves the two jobs' status events. -/
theorem c5_counterexample_two_jobs_interleave :
    (Loop.run envNoOutput (Loop.init
        [WorkerMsg.bake ⟨some [⟨"a", [1]⟩, ⟨"b", [2]⟩], opts0⟩,
         WorkerMsg.bake ⟨some [⟨"c", [3]⟩, ⟨"d", [4]⟩], opts0⟩])
      [Loop.Action.deliver, Loop.Action.deliver, Loop.Action.resume 0,
       Loop.Action.resume 1, Loop.Action.resume 0, Loop.Action.resume 1]).trace =
      [(0, WorkerEvent.status "Preparing WASI FS…"),
       (0, WorkerEvent.status "Fetching wasm…"),
       (1, WorkerEvent.status "Preparing WASI FS…"),
       (1, WorkerEvent.status "Fetching wasm…"),
       (0, WorkerEvent.status "Running ultrahdr-bake…"),
       (1, WorkerEvent.status "Running ultrahdr-bake…"),
       (0, WorkerEvent.error "Output file missing"),
       (1, WorkerEvent.error "Output file missing")] ∧
    tagsNonInterleaved
      ((Loop.run envNoOutput (Loop.init
          [WorkerMsg.bake ⟨some [⟨"a", [1]⟩, ⟨"b", [2]⟩], opts0⟩,
           WorkerMsg.bake ⟨some [⟨"c", [3]⟩, ⟨"d", [4]⟩], opts0⟩])
        [Loop.Action.deliver, Loop.Action.deliver, Loop.Action.resume 0,
         Loop.Action.resume 1, Loop.Action.resume 0,
         Loop.Action.resume 1]).trace.map Prod.fst) = false := by
  constructor
  · rfl
  · decide

/-- Amended C5: the Execution Bridge does not serialize requests.  The
`onmessage` handler starts a bake/motion job the moment its message is
delivered — regardless of how many earlier jobs are still suspended at an
`await` — emitting the new job's first status event at once; requests are
neither held back until the active job finishes nor rejected, and (per
the counterexample) status events of two jobs can interleave.  Callers
must themselves send at most one request at a time. -/
theorem c5_no_serialization_delivery_starts_job_immediately :
    (∀ (env : Env) (s : Loop.WState) (m : BakeMsg) (rest : List WorkerMsg),
      s.queue = WorkerMsg.bake m :: rest →
      (Loop.step env s Loop.Action.deliver).jobs.length = s.jobs.length + 1 ∧
      ∃ tail, (Loop.step env s Loop.Action.deliver).trace =
        s.trace ++ (s.jobs.length, WorkerEvent.status "Preparing WASI FS…") :: tail) ∧
    (∀ (env : Env) (s : Loop.WState) (m : MotionMsg) (rest : List WorkerMsg),
      s.queue = WorkerMsg.motion m :: rest →
      (Loop.step env s Loop.Action.deliver).jobs.length = s.jobs.length + 1 ∧
      ∃ tail, (Loop.step env s Loop.Action.deliver).trace =
        s.trace ++ (s.jobs.length, WorkerEvent.status "Preparing WASI FS…") :: tail) := by
  constructor
  · intro env s m rest hq
    rcases m with ⟨files, opts⟩
    rcases files with - | fl
    · exact ⟨by simp [Loop.step, Loop.deliver, hq, Loop.startJob],
        ⟨[(s.jobs.length, WorkerEvent.error (errPayload typeErrorFilesLength))],
         by simp [Loop.step, Loop.deliver, hq, Loop.startJob]⟩⟩
    · by_cases h2 : fl.length = 2
      · exact ⟨by simp [Loop.step, Loop.deliver, hq, Loop.startJob, h2],
          ⟨[(s.jobs.length, WorkerEvent.status "Fetching wasm…")],
           by simp [Loop.step, Loop.deliver, hq, Loop.startJob, h2]⟩⟩
      · exact ⟨by simp [Loop.step, Loop.deliver, hq, Loop.startJob, h2],
          ⟨[(s.jobs.length,
              WorkerEvent.error (errPayload (mkError "Need exactly two JPEG inputs")))],
           by simp [Loop.step, Loop.deliver, hq, Loop.startJob, h2]⟩⟩
  · intro env s m rest hq
    rcases m with ⟨files, opts⟩
    rcases files with - | fl
    · exact ⟨by simp [Loop.step, Loop.deliver, hq, Loop.startJob],
        ⟨[(s.jobs.length, WorkerEvent.error (errPayload typeErrorFilesLength))],
         by simp [Loop.step, Loop.deliver, hq, Loop.startJob]⟩⟩
    · by_cases h2 : fl.length = 2
      · exact ⟨by simp [Loop.step, Loop.deliver, hq, Loop.startJob, h2],
          ⟨[(s.jobs.length, WorkerEvent.status "Fetching wasm…")],
           by simp [Loop.step, Loop.deliver, hq, Loop.startJob, h2]⟩⟩
      · exact ⟨by simp [Loop.step, Loop.deliver, hq, Loop.startJob, h2],
          ⟨[(s.jobs.length,
              WorkerEvent.error (errPayload (mkError "Need exactly two inputs (photo + video)")))],
           by simp [Loop.step, Loop.deliver, hq, Loop.startJob, h2]⟩⟩

/-- Witness for the amended C5: delivering a bake message to the initial
state starts job 0 immediately. -/
theorem c5_no_serialization_delivery_starts_job_immediately_witness :
    (Loop.step envNoOutput
        (Loop.init [WorkerMsg.bake ⟨some [⟨"a", [1]⟩, ⟨"b", [2]⟩], opts0⟩])
        Loop.Action.deliver).jobs.length =
      (Loop.init [WorkerMsg.bake ⟨some [⟨"a", [1]⟩, ⟨"b", [2]⟩], opts0⟩]).jobs.length + 1 :=
  (c5_no_serialization_delivery_starts_job_immediately.1 envNoOutput
    (Loop.init [WorkerMsg.bake ⟨some [⟨"a", [1]⟩, ⟨"b", [2]⟩], opts0⟩])
    ⟨some [⟨"a", [1]⟩, ⟨"b", [2]⟩], opts0⟩ [] rfl).1

/-! ## Claim C10 -/

theorem hGet_append (h ext : Alias.Heap) (a : Nat) (ha : a < h.length) :
    Alias.hGet (h ++ ext) a = Alias.hGet h a :=
  List.getD_append h ext [] a ha

theorem hGet_snoc_self (h : Alias.Heap) (x : ByteBuf) :
    Alias.hGet (h ++ [x]) h.length = x := by
  simp [Alias.hGet, List.getD_append_right h [x] [] h.length le_rfl]

theorem mapGet_mem_values {α : Type} (fs : List (String × α)) (p : String)
    (v : α) (h : mapGet fs p = some v) : v ∈ fs.map Prod.snd := by
  induction fs with
  | nil => simp [mapGet] at h
  | cons hd tl ih =>
    obtain ⟨q, w⟩ := hd
    by_cases hq : q = p
    · simp [mapGet, hq] at h
      simp [h]
    · simp [mapGet, hq] at h
      simp [ih h]

theorem mapSet_mem {α : Type} (fs : List (String × α)) (p : String) (v : α)
    (x : String × α) (hx : x ∈ mapSet fs p v) : x = (p, v) ∨ x ∈ fs := by
  induction fs with
  | nil =>
    simp [mapSet] at hx
    exact Or.inl hx
  | cons hd tl ih =>
    obtain ⟨q, w⟩ := hd
    by_cases hq : q = p
    · rw [mapSet, if_pos hq] at hx
      rcases List.mem_cons.mp hx with h | h
      · exact Or.inl h
      · exact Or.inr (List.mem_cons_of_mem _ h)
    · rw [mapSet, if_neg hq] at hx
      rcases List.mem_cons.mp hx with h | h
      · exact Or.inr (h ▸ List.mem_cons_self _ _)
      · rcases ih h with h' | h'
        · exact Or.inl h'
        · exact Or.inr (List.mem_cons_of_mem _ h')

theorem stageA_heap_ext (names : List String) : ∀ (h : Alias.Heap)
    (fs : Alias.AFS) (bufs : List ByteBuf),
    ∃ ext, (Alias.stageA h fs names bufs).1 = h ++ ext := by
  induction names with
  | nil =>
    intro h fs bufs
    cases bufs <;> exact ⟨[], by simp [Alias.stageA]⟩
  | cons n ns ih =>
    intro h fs bufs
    cases bufs with
    | nil => exact ⟨[], by simp [Alias.stageA]⟩
    | cons b rest =>
      obtain ⟨ext, hext⟩ := ih (h ++ [b]) (mapSet fs n h.length) rest
      exact ⟨[b] ++ ext, by simpa [Alias.stageA, Alias.alloc] using hext⟩

theorem stageA_length_le (names : List String) (h : Alias.Heap)
    (fs : Alias.AFS) (bufs : List ByteBuf) :
    h.length ≤ (Alias.stageA h fs names bufs).1.length := by
  obtain ⟨ext, he⟩ := stageA_heap_ext names h fs bufs
  simp [he]

theorem stageA_hGet (names : List String) (h : Alias.Heap) (fs : Alias.AFS)
    (bufs : List ByteBuf) (a : Nat) (ha : a < h.length) :
    Alias.hGet (Alias.stageA h fs names bufs).1 a = Alias.hGet h a := by
  obtain ⟨ext, he⟩ := stageA_heap_ext names h fs bufs
  rw [he]
  exact hGet_append h ext a ha

theorem stageA_mem (names : List String) : ∀ (h : Alias.Heap)
    (fs : Alias.AFS) (bufs : List ByteBuf) (x : String × Nat),
    x ∈ (Alias.stageA h fs names bufs).2 →
    x ∈ fs ∨ (h.length ≤ x.2 ∧ x.2 < (Alias.stageA h fs names bufs).1.length) := by
  induction names with
  | nil =>
    intro h fs bufs x hx
    cases bufs <;> exact Or.inl (by simpa [Alias.stageA] using hx)
  | cons n ns ih =>
    intro h fs bufs x hx
    cases bufs with
    | nil => exact Or.inl (by simpa [Alias.stageA] using hx)
    | cons b rest =>
      have hx' : x ∈ (Alias.stageA (h ++ [b]) (mapSet fs n h.length) ns rest).2 := hx
      rcases ih (h ++ [b]) (mapSet fs n h.length) rest x hx' with hmem | ⟨hlo, hhi⟩
      · rcases mapSet_mem fs n h.length x hmem with rfl | hmem'
        · refine Or.inr ⟨le_rfl, ?_⟩
          have hlt : (h ++ [b]).length ≤
              (Alias.stageA (h ++ [b]) (mapSet fs n h.length) ns rest).1.length :=
            stageA_length_le ns (h ++ [b]) (mapSet fs n h.length) rest
          have : h.length < (h ++ [b]).length := by simp
          exact lt_of_lt_of_le this hlt
        · exact Or.inl hmem'
      · refine Or.inr ⟨?_, hhi⟩
        have : h.length ≤ (h ++ [b]).length := by simp
        exact le_trans this hlo

/-- C10: On a successful bake, the buffer carried by the `done` event is
byte-for-byte equal to the output file the sandboxed process wrote into
the virtual filesystem, and it is a fresh copy: its cell is distinct from
the output file's cell, and a subsequent invocation — which resets the
filesystem, stages fresh input cells and runs any process respecting the
sandbox frame condition — leaves the delivered bytes unchanged, so
ownership transfers fully to the caller. -/
theorem c10_done_buffer_fresh_copy_and_stable (env env2 : Alias.AEnv)
    (hF : Alias.Frames env) (hF2 : Alias.Frames env2)
    (h0 : Alias.Heap) (bufs bufs2 : List ByteBuf) (opts opts2 : BakeOpts)
    (h1 : Alias.Heap) (fs1 : Alias.AFS) (c : Nat)
    (hr : Alias.runBakeA env h0 bufs opts = (h1, fs1, Except.ok c)) :
    (∃ a, mapGet fs1 opts.outName = some a ∧ a ≠ c ∧
      Alias.hGet h1 c = Alias.hGet h1 a) ∧
    Alias.hGet (Alias.runBakeA env2 h1 bufs2 opts2).1 c = Alias.hGet h1 c := by
  by_cases hb2 : bufs.length = 2
  case neg => simp [Alias.runBakeA, hb2] at hr
  simp only [Alias.runBakeA, hb2] at hr
  rw [if_neg (by simp)] at hr
  set st := Alias.stageA h0 [] SAFE_BAKE_NAMES (bufs.take 2) with hst
  rcases hw : env.fetchWasm with e | wb
  · simp [Alias.runCliA, hw] at hr
  rcases hi : env.instantiate wb with e | u
  · simp [Alias.runCliA, hw, hi] at hr
  rcases hs : env.start (bakeArgs opts) st.2 st.1 with ⟨fs2, h2, trap⟩
  rcases trap with - | e
  swap
  · simp [Alias.runCliA, hw, hi, hs] at hr
  rcases ho : mapGet fs2 opts.outName with - | a
  · simp [Alias.runCliA, hw, hi, hs, ho] at hr
  simp only [Alias.runCliA, hw, hi, hs, ho, Alias.alloc, Prod.mk.injEq,
    Except.ok.injEq] at hr
  obtain ⟨hh1, hfs1, hc⟩ := hr
  subst hh1
  subst hfs1
  subst hc
  have hfr := hF (bakeArgs opts) st.2 st.1
  rw [hs] at hfr
  obtain ⟨hfr1, hfr2, hfr3⟩ := hfr
  have ha_bound : a < h2.length := by
    rcases hfr3 opts.outName a ho with hmem | ⟨-, hlt⟩
    · obtain ⟨x, hx, hxa⟩ := List.mem_map.mp hmem
      rcases stageA_mem SAFE_BAKE_NAMES h0 [] (bufs.take 2) x hx with hf | ⟨-, hlt'⟩
      · simp at hf
      · rw [← hxa]
        exact lt_of_lt_of_le hlt' hfr1
    · exact hlt
  have hc_lt : h2.length < (h2 ++ [Alias.hGet h2 a]).length := by simp
  refine ⟨⟨a, ho, Nat.ne_of_lt ha_bound, ?_⟩, ?_⟩
  · rw [hGet_snoc_self, hGet_append _ _ a ha_bound]
  · by_cases hb2' : bufs2.length = 2
    case neg => simp [Alias.runBakeA, hb2']
    simp only [Alias.runBakeA, hb2']
    rw [if_neg (by simp)]
    set st2 := Alias.stageA (h2 ++ [Alias.hGet h2 a]) [] SAFE_BAKE_NAMES
      (bufs2.take 2) with hst2
    have hstage2 : Alias.hGet st2.1 h2.length =
        Alias.hGet (h2 ++ [Alias.hGet h2 a]) h2.length :=
      stageA_hGet SAFE_BAKE_NAMES _ _ _ _ hc_lt
    have hlen2 : (h2 ++ [Alias.hGet h2 a]).length ≤ st2.1.length :=
      stageA_length_le SAFE_BAKE_NAMES _ _ _
    rcases hw2 : env2.fetchWasm with e2 | wb2
    · simpa [Alias.runCliA, hw2] using hstage2
    rcases hi2 : env2.instantiate wb2 with e2 | u2
    · simpa [Alias.runCliA, hw2, hi2] using hstage2
    rcases hs2 : env2.start (bakeArgs opts2) st2.2 st2.1 with ⟨fs2', h2', trap2⟩
    have hfr2 := hF2 (bakeArgs opts2) st2.2 st2.1
    rw [hs2] at hfr2
    obtain ⟨hfr21, hfr22, hfr23⟩ := hfr2
    have hpres : Alias.hGet h2' h2.length = Alias.hGet st2.1 h2.length := by
      apply hfr22 h2.length (lt_of_lt_of_le hc_lt hlen2)
      intro hcmem
      obtain ⟨x, hx, hxc⟩ := List.mem_map.mp hcmem
      rcases stageA_mem SAFE_BAKE_NAMES (h2 ++ [Alias.hGet h2 a]) []
        (bufs2.take 2) x hx with hf | ⟨hge, -⟩
      · simp at hf
      · rw [hxc] at hge
        omega
    rcases trap2 with - | e2
    · rcases ho2 : mapGet fs2' opts2.outName with - | a2
      · simp only [Alias.runCliA, hw2, hi2, hs2, ho2]
        rw [hpres]
        exact hstage2
      · simp only [Alias.runCliA, hw2, hi2, hs2, ho2, Alias.alloc]
        rw [hGet_append _ _ h2.length
          (lt_of_lt_of_le (lt_of_lt_of_le hc_lt hlen2) hfr21)]
        rw [hpres]
        exact hstage2
    · simp only [Alias.runCliA, hw2, hi2, hs2]
      rw [hpres]
      exact hstage2

/-- The concrete write-one-output world respects the sandbox frame
condition. -/
theorem frames_aenvWrite (out : String) (b : ByteBuf) :
    Alias.Frames (Alias.aenvWrite out b) := by
  intro args fs h
  refine ⟨by simp [Alias.aenvWrite], ?_, ?_⟩
  · intro a ha _
    simpa [Alias.aenvWrite] using hGet_append h [b] a ha
  · intro p a hm
    simp only [Alias.aenvWrite] at hm ⊢
    rw [mapGet_mapSet] at hm
    by_cases hop : out = p
    · rw [if_pos hop] at hm
      refine Or.inr ?_
      have ha : a = h.length := by
        exact (Option.some.injEq _ _).mp hm.symm
      subst ha
      simp
    · rw [if_neg hop] at hm
      exact Or.inl (mapGet_mem_values fs p a hm)

/-- Witness for C10: a concrete successful bake delivers the copy cell 3,
byte-equal to output cell 2, and a second full invocation leaves cell 3's
bytes unchanged. -/
theorem c10_done_buffer_fresh_copy_and_stable_witness :
    Alias.runBakeA (Alias.aenvWrite "out.jpg" [1, 2, 3]) [] [[5], [6]] opts0 =
      ([[5], [6], [1, 2, 3], [1, 2, 3]],
       [("input1.jpg", 0), ("input2.jpg", 1), ("out.jpg", 2)], Except.ok 3) ∧
    (∃ a, mapGet [("input1.jpg", 0), ("input2.jpg", 1), ("out.jpg", 2)]
        opts0.outName = some a ∧ a ≠ 3 ∧
      Alias.hGet [[5], [6], [1, 2, 3], [1, 2, 3]] 3 =
        Alias.hGet [[5], [6], [1, 2, 3], [1, 2, 3]] a) ∧
    Alias.hGet (Alias.runBakeA (Alias.aenvWrite "out.jpg" [9])
        [[5], [6], [1, 2, 3], [1, 2, 3]] [[7], [8]] opts0).1 3 =
      Alias.hGet [[5], [6], [1, 2, 3], [1, 2, 3]] 3 := by
  refine ⟨rfl, ?_, ?_⟩
  · exact (c10_done_buffer_fresh_copy_and_stable
      (Alias.aenvWrite "out.jpg" [1, 2, 3]) (Alias.aenvWrite "out.jpg" [9])
      (frames_aenvWrite _ _) (frames_aenvWrite _ _) [] [[5], [6]] [[7], [8]]
      opts0 opts0 [[5], [6], [1, 2, 3], [1, 2, 3]]
      [("input1.jpg", 0), ("input2.jpg", 1), ("out.jpg", 2)] 3 rfl).1
  · exact (c10_done_buffer_fresh_copy_and_stable
      (Alias.aenvWrite "out.jpg" [1, 2, 3]) (Alias.aenvWrite "out.jpg" [9])
      (frames_aenvWrite _ _) (frames_aenvWrite _ _) [] [[5], [6]] [[7], [8]]
      opts0 opts0 [[5], [6], [1, 2, 3], [1, 2, 3]]
      [("input1.jpg", 0), ("input2.jpg", 1), ("out.jpg", 2)] 3 rfl).2

end UltraHdrWorker
